import Mathlib

/-!
Verification of `src/step_fun.py` (LuneZ99/stepfun_chat).

The program is a single sequential workflow: acquire a browser, navigate,
locate UI controls by text heuristics, submit a query, and poll a response
region until the text stabilises.  We give a shallow embedding of the three
Python functions `get_ai_response`, `wait_for_ai_response` and
`chat_with_stepfun_ai` and prove the testable properties of the design
document about them.

Modelling conventions:
  * Python strings are Lean `String`; `str.strip()` is `strip` below
    (drop whitespace from both ends); the Python substring test `pat in s`
    is `hasSub pat s` below.
  * Each poll tick's interaction with the page (the body of the `try`
    block at lines 127-146) either produces a text or raises; this is the
    inductive `Tick`.
  * Python's `-1` "not found" index sentinel is `Option Nat` (`none` = -1).
  * Python list slicing `xs[a:b]` is `(xs.drop a).take (b - a)`, which has
    the same clamping behaviour thanks to truncated `Nat` subtraction.
-/

/-- `startsWithL pat s` : `pat` is a prefix of `s` (on explicit char lists). -/
def startsWithL : List Char → List Char → Bool
  | [], _ => true
  | _ :: _, [] => false
  | a :: pas, b :: bs => a = b && startsWithL pas bs

/-- `hasSub pat s` embeds Python's substring containment test `pat in s`. -/
def hasSubL (pat : List Char) : List Char → Bool
  | [] => startsWithL pat []
  | b :: rest => startsWithL pat (b :: rest) || hasSubL pat rest

/-- String version of the Python substring test `pat in s`. -/
def hasSub (pat s : String) : Bool :=
  hasSubL pat.toList s.toList

/-- Drop leading and trailing whitespace from a char list. -/
def stripL (l : List Char) : List Char :=
  ((l.dropWhile Char.isWhitespace).reverse.dropWhile Char.isWhitespace).reverse

/-- Embeds Python's `str.strip()`: remove whitespace from both ends. -/
def strip (s : String) : String :=
  String.mk (stripL s.toList)

/-- The in-progress marker tested at line 132 of `step_fun.py`. -/
def marker : String := "与 DeepSeek R1 生成"

/-- The fallback sentinel returned at line 149 when polling times out with an
empty stored observation. -/
def timeoutMsg : String := "回复超时，未获取到完整回复"

/-- One poll tick's page interaction (the `try` body, lines 127-146): the
read either yields a text or some await in the tick raises (`Tick.err`). -/
inductive Tick where
  | err : Tick
  | text : String → Tick
deriving DecidableEq

/-- What one tick of the loop body does with the stored `prev_response`. -/
inductive TickOutcome where
  | finished : String → TickOutcome
  | skipped : TickOutcome
  | stored : String → TickOutcome
deriving DecidableEq

/-- The branch structure of one iteration of the loop at lines 124-146:
an exception is swallowed (`continue`); a text containing the marker is
skipped (`continue`); a non-empty trimmed text equal to the trimmed previous
observation returns the current text; otherwise the text is stored as the
new previous observation. -/
def pollTick (prev : String) : Tick → TickOutcome
  | Tick.err => TickOutcome.skipped
  | Tick.text response =>
    if hasSub marker response then TickOutcome.skipped
    else if 0 < (strip prev).length ∧ strip prev = strip response then
      TickOutcome.finished response
    else TickOutcome.stored response

/-- The result of `wait_for_ai_response`: the returned text, plus which exit
produced it (`completed = true` for the line-139 return, `false` for the
post-loop return at line 149).  The spec's `QueryResult.completed` flag. -/
structure PollResult where
  text : String
  completed : Bool
deriving DecidableEq

/-- The polling loop of `wait_for_ai_response` (lines 124-149), with the
remaining ticks made explicit.  On exhaustion it returns the stored
observation if truthy (non-empty), else the fallback sentinel. -/
def pollLoop (prev : String) : List Tick → PollResult
  | [] => ⟨if prev = "" then timeoutMsg else prev, false⟩
  | t :: ts =>
    match pollTick prev t with
    | TickOutcome.finished r => ⟨r, true⟩
    | TickOutcome.skipped => pollLoop prev ts
    | TickOutcome.stored r => pollLoop r ts

/-- `wait_for_ai_response`, starting from `prev_response = ""` (line 122);
the real run uses a tick list of length 1800 (line 124). -/
def wait_for_ai_response (ticks : List Tick) : PollResult :=
  pollLoop "" ticks

/-- The sequence of values assigned to `prev_response` (line 141) during a
run of the loop; empty once the loop returns early. -/
def storeTrace (prev : String) : List Tick → List String
  | [] => []
  | t :: ts =>
    match pollTick prev t with
    | TickOutcome.finished _ => []
    | TickOutcome.skipped => storeTrace prev ts
    | TickOutcome.stored r => r :: storeTrace r ts

/-- The final value of `prev_response` when the loop exhausts its ticks;
`none` if the loop returns early (completion). -/
def finalPrev (prev : String) : List Tick → Option String
  | [] => some prev
  | t :: ts =>
    match pollTick prev t with
    | TickOutcome.finished _ => none
    | TickOutcome.skipped => finalPrev prev ts
    | TickOutcome.stored r => finalPrev r ts

lemma length_pos_of_ne_empty (s : String) (h : s ≠ "") : 0 < s.length := by
  cases s with
  | mk d =>
    cases d with
    | nil => exact absurd rfl h
    | cons c cs => simp [String.length]

/-- Claim C1: if a non-skipped tick (a successful read whose text does not
contain the in-progress marker) reads a text whose trimmed form is non-empty
and equal to the trimmed stored previous observation, the run declares
completion on that tick and returns exactly the current (untrimmed) text. -/
theorem C1_stable_text_completes (ts : List Tick) (prev r : String)
    (hm : hasSub marker r = false) (hne : strip r ≠ "")
    (heq : strip prev = strip r) :
    pollLoop prev (Tick.text r :: ts) = ⟨r, true⟩ := by
  have hprev : 0 < (strip prev).length :=
    length_pos_of_ne_empty (strip prev) (by rw [heq]; exact hne)
  have hr : 0 < (strip r).length := heq ▸ hprev
  simp [pollLoop, pollTick, hm, hprev, hr, heq]

theorem C1_stable_text_completes_witness :
    pollLoop "hello " [Tick.text " hello"] = ⟨" hello", true⟩ :=
  C1_stable_text_completes [] "hello " " hello" (by decide) (by decide)
    (by decide)

/-- Claim C2: a tick whose freshly read text contains the in-progress marker
leaves the stored previous observation unchanged and does not terminate the
run on that tick: the loop simply continues on the remaining ticks with the
same state. -/
theorem C2_marker_tick_skipped (ts : List Tick) (prev r : String)
    (hm : hasSub marker r = true) :
    pollTick prev (Tick.text r) = TickOutcome.skipped ∧
      pollLoop prev (Tick.text r :: ts) = pollLoop prev ts := by
  constructor
  · simp [pollTick, hm]
  · simp [pollLoop, pollTick, hm]

theorem C2_marker_tick_skipped_witness :
    pollTick "prev" (Tick.text marker) = TickOutcome.skipped ∧
      pollLoop "prev" [Tick.text marker] = pollLoop "prev" [] :=
  C2_marker_tick_skipped [] "prev" marker (by decide)

/-- The loop-level `except` branch (lines 144-146) is a skip: an exception
raised by a tick's OTHER awaits (not the response-region read, which never
raises — see `get_ai_response`) is swallowed, non-terminal, and leaves the
stored previous observation unchanged. -/
lemma loop_except_is_skip (ts : List Tick) (prev : String) :
    pollTick prev Tick.err = TickOutcome.skipped ∧
      pollLoop prev (Tick.err :: ts) = pollLoop prev ts := by
  constructor
  · rfl
  · simp [pollLoop, pollTick]

lemma pollLoop_replicate_err (n : Nat) (prev : String) :
    pollLoop prev (List.replicate n Tick.err) =
      ⟨if prev = "" then timeoutMsg else prev, false⟩ := by
  induction n with
  | zero => simp [pollLoop]
  | succ m ih => simpa [pollLoop, pollTick, List.replicate] using ih

lemma storeTrace_replicate_err (n : Nat) (prev : String) :
    storeTrace prev (List.replicate n Tick.err) = [] := by
  induction n with
  | zero => simp [storeTrace]
  | succ m ih => simpa [storeTrace, pollTick, List.replicate] using ih

lemma finalPrev_replicate_err (n : Nat) (prev : String) :
    finalPrev prev (List.replicate n Tick.err) = some prev := by
  induction n with
  | zero => simp [finalPrev]
  | succ m ih => simpa [finalPrev, pollTick, List.replicate] using ih

lemma storeTrace_cons_stored {prev r : String} {t : Tick} (ts : List Tick)
    (h : pollTick prev t = TickOutcome.stored r) :
    storeTrace prev (t :: ts) = r :: storeTrace r ts := by
  rw [storeTrace, h]

lemma pollLoop_cons_stored {prev r : String} {t : Tick} (ts : List Tick)
    (h : pollTick prev t = TickOutcome.stored r) :
    pollLoop prev (t :: ts) = pollLoop r ts := by
  rw [pollLoop, h]

/-- A full-budget run (1800 ticks) that stores the non-empty observation
"a", then overwrites it with the empty observation "", then only errors. -/
def cexTicks : List Tick :=
  Tick.text "a" :: Tick.text "" :: List.replicate 1798 Tick.err

/-- Claim C3 as stated is false: in this 1800-tick run the loop never
completes and a non-empty observation ("a") is stored, yet the run returns
the fallback sentinel rather than a stored observation, because the final
stored observation is the later, empty one. -/
theorem C3_counterexample :
    cexTicks.length = 1800 ∧
      storeTrace "" cexTicks = ["a", ""] ∧
      wait_for_ai_response cexTicks = ⟨timeoutMsg, false⟩ ∧
      timeoutMsg ≠ "a" ∧ timeoutMsg ≠ "" := by
  have h1 : pollTick "" (Tick.text "a") = TickOutcome.stored "a" := by
    decide
  have h2 : pollTick "a" (Tick.text "") = TickOutcome.stored "" := by
    decide
  refine ⟨?_, ?_, ?_, by decide, by decide⟩
  · simp only [cexTicks, List.length_cons, List.length_replicate]
  · show storeTrace "" (Tick.text "a" :: Tick.text "" ::
      List.replicate 1798 Tick.err) = ["a", ""]
    rw [storeTrace_cons_stored _ h1, storeTrace_cons_stored _ h2,
      storeTrace_replicate_err]
  · show pollLoop "" (Tick.text "a" :: Tick.text "" ::
      List.replicate 1798 Tick.err) = ⟨timeoutMsg, false⟩
    rw [pollLoop_cons_stored _ h1, pollLoop_cons_stored _ h2,
      pollLoop_replicate_err]
    decide

lemma pollLoop_of_finalPrev (ticks : List Tick) (prev p : String)
    (h : finalPrev prev ticks = some p) :
    pollLoop prev ticks = ⟨if p = "" then timeoutMsg else p, false⟩ := by
  induction ticks generalizing prev with
  | nil =>
    simp only [finalPrev, Option.some.injEq] at h
    simp [pollLoop, h]
  | cons t ts ih =>
    simp only [finalPrev] at h
    simp only [pollLoop]
    cases ho : pollTick prev t with
    | finished r => rw [ho] at h; exact absurd h (by simp)
    | skipped => rw [ho] at h; exact ih prev h
    | stored r => rw [ho] at h; exact ih r h

/-- Claim C3, amended: if all 1800 ticks elapse without any tick declaring
completion (i.e. the stored observation survives to the end with final value
`p`), the run returns `p` when `p` is non-empty and the fallback sentinel
when `p` is empty, marked not completed.  (Only the FINAL stored value
matters: a non-empty observation stored earlier and later overwritten by an
empty one still yields the fallback sentinel.) -/
theorem C3_timeout_returns_final_observation (ticks : List Tick) (p : String)
    (hlen : ticks.length = 1800) (hfin : finalPrev "" ticks = some p) :
    wait_for_ai_response ticks = ⟨if p = "" then timeoutMsg else p, false⟩ :=
  pollLoop_of_finalPrev ticks "" p hfin

theorem C3_timeout_returns_final_observation_witness :
    wait_for_ai_response (List.replicate 1800 Tick.err) =
      ⟨timeoutMsg, false⟩ := by
  have h := C3_timeout_returns_final_observation
    (List.replicate 1800 Tick.err) "" (List.length_replicate 1800 Tick.err)
    (finalPrev_replicate_err 1800 "")
  simpa only [if_pos] using h

/-- The two fallible ingredients of `get_ai_response` (lines 162-170):
`none` models the locator lookup or `text_content()` raising, and
`some none` models `text_content()` returning null (Python `None`). -/
def PageRead : Type := Option (Option String)

/-- `get_ai_response` (lines 152-174): any exception is caught and turned
into `""`; a null text is turned into `""` (Python truthiness test
`response_text if response_text else ""`); otherwise the text is returned.
Total by construction: it never propagates an exception to its caller. -/
def get_ai_response (read : PageRead) : String :=
  match read with
  | none => ""
  | some none => ""
  | some (some t) => if t = "" then "" else t

/-- Claim C10: `get_ai_response` is total with respect to errors: for every
page state it returns a string, equal to the extracted text when lookup and
extraction succeed with a non-null text, and `""` when the lookup or
extraction raises or when the text content is null. -/
theorem C10_read_is_total (read : PageRead) :
    get_ai_response read = Option.getD (Option.join read) "" := by
  cases read with
  | none => rfl
  | some inner =>
    cases inner with
    | none => rfl
    | some t =>
      by_cases h : t = "" <;> simp [get_ai_response, h]

/-- Claim C4 as stated is false: a tick whose response-region read fails
with a transient error never reaches the loop's `except` branch, because
`get_ai_response` swallows the error and returns `""` (lines 172-174); the
loop then stores `""` at line 141.  Concretely, with stored previous
observation "a", the failing-read tick UPDATES the stored observation
(to `""`), and the run behaves differently from a skipped tick: after this
tick an exhausted budget yields the fallback sentinel instead of "a". -/
theorem C4_counterexample :
    get_ai_response none = "" ∧
      pollTick "a" (Tick.text (get_ai_response none)) =
        TickOutcome.stored "" ∧
      TickOutcome.stored "" ≠ TickOutcome.skipped ∧
      pollLoop "a" [Tick.text (get_ai_response none)] =
        ⟨timeoutMsg, false⟩ ∧
      pollLoop "a" [] = ⟨"a", false⟩ := by
  decide

/-- Claim C4, amended: on every tick on which reading the response region
fails with a transient error, the error is swallowed inside
`get_ai_response` (not the polling loop), which returns `""`; the tick is
non-terminal, but it is NOT a skip: it stores `""` as the new previous
observation, updating (and resetting) the stored observation whatever its
previous value.  (Only exceptions from a tick's other awaits reach the
loop's `except` branch and behave like a skip.) -/
theorem C4_read_error_stores_empty (ts : List Tick) (prev : String) :
    get_ai_response none = "" ∧
      pollTick prev (Tick.text (get_ai_response none)) =
        TickOutcome.stored "" ∧
      pollLoop prev (Tick.text (get_ai_response none) :: ts) =
        pollLoop "" ts := by
  have hm : ¬hasSub marker "" = true := by decide
  have hC : ¬(0 < (strip prev).length ∧ strip prev = strip "") := by
    rintro ⟨h1, h2⟩
    rw [h2] at h1
    exact absurd h1 (by decide)
  have hp : pollTick prev (Tick.text "") = TickOutcome.stored "" := by
    simp only [pollTick]
    rw [if_neg hm, if_neg hC]
  exact ⟨rfl, hp, pollLoop_cons_stored ts hp⟩

/-- Errors that end a run of `chat_with_stepfun_ai`.  The three `raise
Exception(...)` sites at lines 75, 94 and 99 are the spec's
`ControlNotFoundError`; `nav` is a navigation failure (lines 61-62) and
`other` any other raising await. -/
inductive RunErr where
  | nav : RunErr
  | noInput : RunErr
  | noBoundary : RunErr
  | noMiddle : RunErr
  | other : RunErr
deriving DecidableEq

/-- Left-boundary marker tested at line 88. -/
def webMarker : String := "联网"

/-- Right-boundary marker tested at line 90. -/
def videoMarker : String := "视频创作"

/-- The enumeration loop at lines 86-91 of `step_fun.py`: walk the button
texts with the running index `i` and the two accumulators (initially
`none`, for Python's `-1`); a text containing the web marker records the
left index, ELSE a text containing the video marker records the right
index; later matches overwrite earlier ones. -/
def scanGo : Nat → Option Nat → Option Nat → List String →
    Option Nat × Option Nat
  | _, w, v, [] => (w, v)
  | i, w, v, t :: ts =>
    if hasSub webMarker t then scanGo (i + 1) (some i) v ts
    else if hasSub videoMarker t then scanGo (i + 1) w (some i) ts
    else scanGo (i + 1) w v ts

/-- The boundary indices (`web_search_index`, `stepfun_video_index`)
computed from the enumerated button texts. -/
def scanButtons (buttons : List String) : Option Nat × Option Nat :=
  scanGo 0 none none buttons

/-- Index of the last element satisfying `p`, with running index and
accumulator. -/
def lastIdxGo (p : String → Bool) : Nat → Option Nat → List String →
    Option Nat
  | _, acc, [] => acc
  | i, acc, t :: ts => lastIdxGo p (i + 1) (if p t then some i else acc) ts

/-- Index of the last element of the list satisfying `p` (if any). -/
def lastIdxWhere (p : String → Bool) (ts : List String) : Option Nat :=
  lastIdxGo p 0 none ts

/-- Submit-control selection (lines 93-101): fail if either boundary index
is missing; otherwise slice strictly between the two indices
(`buttons[w+1:v]`), fail if the slice is empty, else take its first
element. -/
def pickSubmit (buttons : List String) : Except RunErr String :=
  match scanButtons buttons with
  | (some w, some v) =>
    match (buttons.drop (w + 1)).take (v - (w + 1)) with
    | [] => Except.error RunErr.noMiddle
    | b :: _ => Except.ok b
  | _ => Except.error RunErr.noBoundary

/-- Kinds of DOM elements relevant to the selector at line 71. -/
inductive ElemKind where
  | inputEl : ElemKind
  | textareaEl : ElemKind
  | editableEl : ElemKind
  | buttonEl : ElemKind
  | otherEl : ElemKind
deriving DecidableEq

/-- A DOM element: an identity plus its kind. -/
structure Elem where
  id : Nat
  kind : ElemKind
deriving DecidableEq

/-- Whether the selector `input, textarea, [contenteditable='true']`
matches the element. -/
def isTextInputCapable (k : ElemKind) : Bool :=
  match k with
  | ElemKind.inputEl => true
  | ElemKind.textareaEl => true
  | ElemKind.editableEl => true
  | _ => false

/-- `query_selector_all("input, textarea, [contenteditable='true']")`:
the matching elements in document order. -/
def querySelectorAllInputs (page : List Elem) : List Elem :=
  page.filter (fun el => isTextInputCapable el.kind)

/-- Input-field selection (lines 71-77): fail if the selector returns no
elements, else take `input_fields[0]`. -/
def pickInput (page : List Elem) : Except RunErr Elem :=
  match querySelectorAllInputs page with
  | [] => Except.error RunErr.noInput
  | el :: _ => Except.ok el

/-- The page environment one run of `chat_with_stepfun_ai` interacts with
inside the `try` block: whether navigation succeeds, the page's elements in
document order, whether the fill/click awaits succeed, the enumerated
button texts, and the poll-tick outcomes. -/
structure Env where
  navOk : Bool
  pageElems : List Elem
  actionsOk : Bool
  buttons : List String
  ticks : List Tick

/-- The `try` body of `chat_with_stepfun_ai` (lines 58-106), instrumented
with a flag recording whether the polling loop (`wait_for_ai_response`)
was entered.  Steps in source order: navigate, select the input field,
fill/click, select the submit control, then poll. -/
def tryBodyI (e : Env) : Except RunErr PollResult × Bool :=
  if e.navOk = false then (Except.error RunErr.nav, false)
  else
    match pickInput e.pageElems with
    | Except.error err => (Except.error err, false)
    | Except.ok _ =>
      if e.actionsOk = false then (Except.error RunErr.other, false)
      else
        match pickSubmit e.buttons with
        | Except.error err => (Except.error err, false)
        | Except.ok _ => (Except.ok (wait_for_ai_response e.ticks), true)

/-- The three awaits of `chat_with_stepfun_ai` that run BEFORE the
`try`/`finally` (lines 46-56): browser launch, context (session) creation,
page creation.  Each can raise. -/
structure Acq where
  launchOk : Bool
  contextOk : Bool
  pageOk : Bool

/-- How one run of `chat_with_stepfun_ai` ends: its result, whether the
`finally` block's `browser.close()` (line 109) ran, and whether the
enclosing `async with async_playwright()` exited (its exit stops the
driver, disposing every browser launched through it, hence the session and
page). -/
structure RunExit where
  result : Except RunErr PollResult
  browserClosed : Bool
  playwrightStopped : Bool

/-- `chat_with_stepfun_ai` (lines 29-109): acquisition failures propagate
without running the `finally` (it is not yet entered) but still exit the
`async with`; once the `try` is entered, `browser.close()` runs on every
outcome of the body. -/
def chat_with_stepfun_ai (a : Acq) (e : Env) : RunExit :=
  if a.launchOk = false then ⟨Except.error RunErr.other, false, true⟩
  else if a.contextOk = false then ⟨Except.error RunErr.other, false, true⟩
  else if a.pageOk = false then ⟨Except.error RunErr.other, false, true⟩
  else ⟨(tryBodyI e).1, true, true⟩

/-- The browser session is released when either the `finally` closed the
browser or the playwright driver was stopped. -/
def sessionReleased (r : RunExit) : Bool :=
  r.browserClosed || r.playwrightStopped

lemma scanGo_eq (ts : List String) : ∀ i w v,
    scanGo i w v ts =
      (lastIdxGo (fun t => hasSub webMarker t) i w ts,
       lastIdxGo (fun t => hasSub videoMarker t && !hasSub webMarker t)
         i v ts) := by
  induction ts with
  | nil => intro i w v; rfl
  | cons t ts ih =>
    intro i w v
    by_cases hw : hasSub webMarker t
    · simp [scanGo, lastIdxGo, hw, ih]
    · by_cases hv : hasSub videoMarker t
      · simp [scanGo, lastIdxGo, hw, hv, ih]
      · simp [scanGo, lastIdxGo, hw, hv, ih]

lemma scanButtons_eq (buttons : List String) :
    scanButtons buttons =
      (lastIdxWhere (fun t => hasSub webMarker t) buttons,
       lastIdxWhere (fun t => hasSub videoMarker t && !hasSub webMarker t)
         buttons) :=
  scanGo_eq buttons 0 none none

lemma lastIdxGo_bound (p : String → Bool) (ts : List String) : ∀ i acc v,
    lastIdxGo p i acc ts = some v →
      acc = some v ∨ (i ≤ v ∧ v < i + ts.length) := by
  induction ts with
  | nil => intro i acc v h; exact Or.inl h
  | cons t ts ih =>
    intro i acc v h
    rcases ih (i + 1) (if p t then some i else acc) v h with h1 | h2
    · by_cases hp : p t
      · rw [if_pos hp] at h1
        have hv : i = v := by injection h1
        right
        simp only [List.length_cons]
        omega
      · rw [if_neg hp] at h1
        exact Or.inl h1
    · right
      simp only [List.length_cons]
      omega

lemma lastIdxWhere_lt_length (p : String → Bool) (ts : List String)
    (v : Nat) (h : lastIdxWhere p ts = some v) : v < ts.length := by
  rcases lastIdxGo_bound p ts 0 none v h with h1 | h2
  · exact absurd h1 (by simp)
  · omega

lemma lastIdxGo_of_none (p : String → Bool) (ts : List String)
    (hp : ∀ t ∈ ts, p t = false) : ∀ i acc, lastIdxGo p i acc ts = acc := by
  induction ts with
  | nil => intro i acc; rfl
  | cons t ts ih =>
    intro i acc
    have ht : p t = false := hp t (by simp)
    rw [lastIdxGo, if_neg (by simp [ht])]
    exact ih (fun u hu => hp u (by simp [hu])) (i + 1) acc

/-- Claim C9: the boundary index recorded for the left marker is the index
of the LAST button whose text contains it (later matches overwrite earlier
ones), and — because of the `elif` at line 90 — the right-boundary index is
the index of the last button whose text contains the right marker AND not
the left marker: a button whose text contains the left marker is never
recorded as the right boundary, even if its text also contains the right
marker. -/
theorem C9_last_match_boundaries (buttons : List String) :
    scanButtons buttons =
      (lastIdxWhere (fun t => hasSub webMarker t) buttons,
       lastIdxWhere (fun t => hasSub videoMarker t && !hasSub webMarker t)
         buttons) :=
  scanButtons_eq buttons

/-- Claim C6: when both boundary markers are recorded at indices `w < v`
with a control strictly between them, the submit control selected is the
first control strictly between those indices in document order
(`buttons[w+1]`); when no control lies strictly between them the run fails
with `ControlNotFoundError` (here `RunErr.noMiddle`, the
`raise Exception("未找到聊天按钮")` at line 99). -/
theorem C6_first_control_between (buttons : List String) (w v : Nat)
    (h : scanButtons buttons = (some w, some v)) :
    (w + 1 < v → w + 1 < buttons.length ∧
        pickSubmit buttons = Except.ok (buttons.getD (w + 1) "")) ∧
      (v ≤ w + 1 → pickSubmit buttons = Except.error RunErr.noMiddle) := by
  have hv : v < buttons.length := by
    have hc := scanButtons_eq buttons
    rw [h] at hc
    exact lastIdxWhere_lt_length _ buttons v
      (by rw [← (Prod.mk.injEq _ _ _ _).mp hc.symm |>.2])
  constructor
  · intro hlt
    have hwlen : w + 1 < buttons.length := Nat.lt_trans hlt hv
    have hdrop : buttons.drop (w + 1) =
        buttons[w + 1] :: buttons.drop (w + 2) :=
      List.drop_eq_getElem_cons hwlen
    obtain ⟨k, hk⟩ : ∃ k, v - (w + 1) = k + 1 := ⟨v - (w + 1) - 1, by omega⟩
    refine ⟨hwlen, ?_⟩
    have hred : pickSubmit buttons =
        match (buttons.drop (w + 1)).take (v - (w + 1)) with
        | [] => Except.error RunErr.noMiddle
        | b :: _ => Except.ok b := by
      rw [pickSubmit, h]
    rw [hred, hdrop, hk, List.take_succ_cons,
      List.getD_eq_getElem buttons "" hwlen]
  · intro hle
    have hz : v - (w + 1) = 0 := by omega
    have hred : pickSubmit buttons =
        match (buttons.drop (w + 1)).take (v - (w + 1)) with
        | [] => Except.error RunErr.noMiddle
        | b :: _ => Except.ok b := by
      rw [pickSubmit, h]
    rw [hred, hz, List.take_zero]

theorem C6_first_control_between_witness :
    0 + 1 < (["联网", "chat", "视频创作"] : List String).length ∧
      pickSubmit ["联网", "chat", "视频创作"] = Except.ok "chat" :=
  (C6_first_control_between ["联网", "chat", "视频创作"] 0 2
    (by decide)).1 (by decide)

lemma pickSubmit_noBoundary (buttons : List String)
    (hmiss : (∀ t ∈ buttons, hasSub webMarker t = false) ∨
      (∀ t ∈ buttons, hasSub videoMarker t = false)) :
    pickSubmit buttons = Except.error RunErr.noBoundary := by
  have hc := scanButtons_eq buttons
  rcases hmiss with hw | hv
  · have h1 : lastIdxWhere (fun t => hasSub webMarker t) buttons = none :=
      lastIdxGo_of_none _ buttons (fun t ht => hw t ht) 0 none
    rw [pickSubmit, hc, h1]
  · have h2 : lastIdxWhere
        (fun t => hasSub videoMarker t && !hasSub webMarker t)
        buttons = none :=
      lastIdxGo_of_none _ buttons (fun t ht => by simp [hv t ht]) 0 none
    rw [pickSubmit, hc, h2]
    cases lastIdxWhere (fun t => hasSub webMarker t) buttons with
    | none => rfl
    | some w => rfl

/-- Claim C5: whenever no enumerated button's text contains the
left-boundary marker, or none contains the right-boundary marker, a run
that reached the button enumeration (navigation succeeded, an input field
was found and filled) fails with `ControlNotFoundError` (here
`RunErr.noBoundary`, the `raise Exception("未找到目标按钮")` at line 94)
and the polling loop is never entered. -/
theorem C5_missing_boundary_aborts (e : Env)
    (hnav : e.navOk = true)
    (hinp : querySelectorAllInputs e.pageElems ≠ [])
    (hact : e.actionsOk = true)
    (hmiss : (∀ t ∈ e.buttons, hasSub webMarker t = false) ∨
      (∀ t ∈ e.buttons, hasSub videoMarker t = false)) :
    tryBodyI e = (Except.error RunErr.noBoundary, false) := by
  have hpick := pickSubmit_noBoundary e.buttons hmiss
  cases hq : querySelectorAllInputs e.pageElems with
  | nil => exact absurd hq hinp
  | cons el rest =>
    have hpi : pickInput e.pageElems = Except.ok el := by
      rw [pickInput, hq]
    rw [tryBodyI, if_neg (by simp [hnav]), hpi]
    rw [if_neg (by simp [hact]), hpick]

theorem C5_missing_boundary_aborts_witness :
    tryBodyI ⟨true, [⟨0, ElemKind.inputEl⟩], true, ["视频创作"], []⟩ =
      (Except.error RunErr.noBoundary, false) :=
  C5_missing_boundary_aborts
    ⟨true, [⟨0, ElemKind.inputEl⟩], true, ["视频创作"], []⟩
    rfl (by decide) rfl (Or.inl (by decide))

/-- Claim C7: the element chosen to receive the query text is the first
text-input-capable element (native input, text area, or editable region)
in document order — the head of the selector's result, i.e. `List.find?`
of the capability predicate — and when no such element exists the run
fails with `ControlNotFoundError` (here `RunErr.noInput`, the
`raise Exception("未找到输入框")` at line 75). -/
theorem C7_first_input_selected (page : List Elem) :
    pickInput page =
      match page.find? (fun el => isTextInputCapable el.kind) with
      | some el => Except.ok el
      | none => Except.error RunErr.noInput := by
  induction page with
  | nil => rfl
  | cons el rest ih =>
    by_cases h : isTextInputCapable el.kind
    · have hfil : querySelectorAllInputs (el :: rest) =
          el :: querySelectorAllInputs rest := by
        simp [querySelectorAllInputs, List.filter_cons, h]
      have hfind : (el :: rest).find? (fun e => isTextInputCapable e.kind) =
          some el := by
        simp [List.find?_cons, h]
      rw [pickInput, hfil, hfind]
    · have hfil : querySelectorAllInputs (el :: rest) =
          querySelectorAllInputs rest := by
        simp [querySelectorAllInputs, List.filter_cons, h]
      have hfind : (el :: rest).find? (fun e => isTextInputCapable e.kind) =
          rest.find? (fun e => isTextInputCapable e.kind) := by
        simp [List.find?_cons, h]
      rw [pickInput, hfil, hfind]
      exact ih

/-- Claim C8: on every exit path of a run — normal return,
control-not-found failure, poll timeout, or any exception raised after
session acquisition — the browser session (and with it the page) is
released before the run ends: the `finally` block closes the browser on
every outcome of the `try` body, and exiting the `async with
async_playwright()` block stops the driver (disposing every launched
browser) even on the acquisition paths the `finally` does not cover. -/
theorem C8_session_always_released (a : Acq) (e : Env) :
    sessionReleased (chat_with_stepfun_ai a e) = true ∧
      (a.launchOk = true → a.contextOk = true → a.pageOk = true →
        (chat_with_stepfun_ai a e).browserClosed = true) := by
  constructor
  · rcases a with ⟨l, c, p⟩
    cases l <;> cases c <;> cases p <;>
      simp [chat_with_stepfun_ai, sessionReleased]
  · intro h1 h2 h3
    simp [chat_with_stepfun_ai, h1, h2, h3]

theorem C8_session_always_released_witness :
    sessionReleased (chat_with_stepfun_ai ⟨true, true, true⟩
        ⟨true, [], true, [], []⟩) = true ∧
      (chat_with_stepfun_ai ⟨true, true, true⟩
        ⟨true, [], true, [], []⟩).browserClosed = true :=
  ⟨(C8_session_always_released ⟨true, true, true⟩
      ⟨true, [], true, [], []⟩).1,
   (C8_session_always_released ⟨true, true, true⟩
      ⟨true, [], true, [], []⟩).2 rfl rfl rfl⟩
